import Mathlib

set_option maxHeartbeats 1000000
set_option maxRecDepth 8000

/-
Verification development for the xapkInstaller repository
(src/xapkInstaller.py).  The definitions below are a shallow embedding of
the Python source: pure helper functions mirror the `str`/`list` operations
the script uses, dictionaries become association lists of dynamically typed
values, subprocess results become explicit records, and the device bridge
becomes an oracle mapping a command line to a completed-process record.
`sys.exit` and uncaught Python exceptions are modelled with `Except`.
Each definition is annotated with the source lines it embeds.
-/

/-! ## Python string helpers -/

/-- Bool test that `p` is a leading segment of `l` (used for `str.startswith`,
`in`, `str.endswith` via reversal). -/
def charsStartWith : List Char → List Char → Bool
  | [], _ => true
  | _ :: _, [] => false
  | a :: as, b :: bs => (a == b) && charsStartWith as bs

/-- Bool test that `p` occurs contiguously inside the second list. -/
def charsContain (p : List Char) : List Char → Bool
  | [] => charsStartWith p []
  | b :: rest => charsStartWith p (b :: rest) || charsContain p rest

/-- Python `sub in s` (substring containment). -/
def pyIn (sub s : String) : Bool := charsContain sub.data s.data

/-- Python `s.endswith(suf)`. -/
def pyEndsWith (s suf : String) : Bool := charsStartWith suf.data.reverse s.data.reverse

/-- Python `s.startswith(pre)`. -/
def pyStartsWith (s pre : String) : Bool := charsStartWith pre.data s.data

def isPySpace (c : Char) : Bool :=
  (c == Char.ofNat 32) || (c == Char.ofNat 9) || (c == Char.ofNat 10) ||
  (c == Char.ofNat 13) || (c == Char.ofNat 11) || (c == Char.ofNat 12)

/-- Python `s.strip()` (trim whitespace at both ends). -/
def pyStrip (s : String) : String :=
  String.mk (((s.data.dropWhile isPySpace).reverse.dropWhile isPySpace).reverse)

def splitCharAux (sep : Char) : List Char → List Char → List String
  | [], acc => [String.mk acc.reverse]
  | x :: xs, acc =>
    if x == sep then String.mk acc.reverse :: splitCharAux sep xs []
    else splitCharAux sep xs (x :: acc)

/-- Python `s.split(sep)` for a one-character separator (empty pieces kept). -/
def pySplit (s : String) (sep : Char) : List String := splitCharAux sep s.data []

/-- Python `s[n:]`. -/
def pyDrop (n : Nat) (s : String) : String := String.mk (s.data.drop n)

/-- `os.path.join` for the two-argument uses in the source (POSIX separator). -/
def pyJoin (a b : String) : String := if a = "" then b else a ++ "/" ++ b

/-- `os.path.split(p)[-1]`: the last path component. -/
def pyBasename (s : String) : String := (pySplit s (Char.ofNat 47)).getLastD ""

/-- Python `s.replace('-', '_')`; for a one-character pattern `str.replace`
is a character map. -/
def pyReplaceDash (s : String) : String :=
  String.mk (s.data.map fun c => if c == Char.ofNat 45 then Char.ofNat 95 else c)

/-- Python `s.split(".")[1]` as used at src line 220.  A missing component
raises IndexError in Python; the theorems below only exercise inputs where
the component exists, and the fallback value "" never collides with any key
the selector reads. -/
def splitGet1 (s : String) : String := ((pySplit s (Char.ofNat 46)).get? 1).getD ""

def digitVal (c : Char) : Option Nat :=
  if 48 ≤ c.toNat ∧ c.toNat ≤ 57 then some (c.toNat - 48) else none

def digitsVal (l : List Char) : Option Nat :=
  if l.isEmpty then none
  else l.foldl (fun acc c => match acc, digitVal c with
    | some n, some d => some (n * 10 + d)
    | _, _ => none) (some 0)

/-- Python `int(s)` on a decimal string: `some n` on success, `none` where
Python raises ValueError.  (Grouping underscores and non-decimal bases are
not exercised by the source.) -/
def pyIntOpt (s : String) : Option Int :=
  match (pyStrip s).data with
  | [] => none
  | c :: rest =>
    if c == Char.ofNat 45 then (digitsVal rest).map (fun n => -(n : Int))
    else if c == Char.ofNat 43 then (digitsVal rest).map (fun n => (n : Int))
    else (digitsVal (c :: rest)).map (fun n => (n : Int))

/-! ## Python dict values -/

/-- The values stored in the selector's `config` dict: file-name strings and
the `"language"` list (src line 210). -/
inductive PyVal
  | str (s : String)
  | list (l : List String)
deriving DecidableEq

abbrev Dict := List (String × PyVal)

/-- `config.get(key)`. -/
def dget : Dict → String → Option PyVal
  | [], _ => none
  | (k, v) :: rest, key => if k = key then some v else dget rest key

/-- `config[key] = v` (overwrite or append, insertion order kept). -/
def dset : Dict → String → PyVal → Dict
  | [], key, v => [(key, v)]
  | (k, w) :: rest, key, v =>
    if k = key then (key, v) :: rest else (k, w) :: dset rest key v

/-- Python truthiness of `config.get(key)`: absent keys and empty
strings/lists are falsy. -/
def pyTruthy : Option PyVal → Bool
  | none => false
  | some (PyVal.str s) => !(s == "")
  | some (PyVal.list l) => !l.isEmpty

/-! ## Device snapshot and fixed vocabularies (src lines 23-32, 39-120) -/

/-- Snapshot of the cached `Device` properties (the Python class probes each
property once and caches it; the selector only reads the cached values). -/
structure Device where
  abi : String
  abilist : List String
  drawable : List String
  locale : String
  sdk : Int
deriving DecidableEq

/-- src line 23. -/
def _abi : List String :=
  ["armeabi_v7a", "arm64_v8a", "armeabi", "x86_64", "x86", "mips64", "mips"]

/-- src lines 24-26. -/
def _language : List String :=
  ["ar", "bn", "de", "en", "et", "es", "fr", "hi", "in", "it",
   "ja", "ko", "ms", "my", "nl", "pt", "ru", "sv", "th", "tl",
   "tr", "vi", "zh"]

/-- `info_msg["sdktoolow"]`, src line 31. -/
def sdktoolow : String := "Installation failed: Android version is too low!"

/-- `abi = [f"config.{i}" for i in _abi]`, src line 208. -/
def abiIds : List String := _abi.map (fun i => "config." ++ i)

/-- `language = [f"config.{i}" for i in _language]`, src line 209. -/
def languageIds : List String := _language.map (fun i => "config." ++ i)

/-- The statically named keys of the selector's config dict. -/
def reservedKeys : List String := ["language", "abi", "drawable"]

/-! ## Density bucketing (src lines 85-99, `Device.getdrawable`) -/

/-- `Device.getdrawable`.  The Python computes
`_dpi = int((self.dpi+39)/40)` and walks the range cascade; `dpi` is the
nonnegative integer parsed from the `...dpi` token of the window dump, so it
is modelled as `Nat`, where `int((dpi+39)/40)` is `(dpi+39)/40` in natural
division.  A transform outside every listed range leaves `self._drawable`
as `None`. -/
def getdrawable (dpi : Nat) : Option (List String) :=
  let d := (dpi + 39) / 40
  if 0 ≤ d ∧ d ≤ 3 then some ["ldpi"]
  else if 3 < d ∧ d ≤ 4 then some ["mdpi"]
  else if 4 < d ∧ d ≤ 6 then some ["tvdpi", "hdpi"]
  else if 6 < d ∧ d ≤ 8 then some ["xhdpi"]
  else if 8 < d ∧ d ≤ 12 then some ["xxhdpi"]
  else if 12 < d ∧ d ≤ 16 then some ["xxxhdpi"]
  else none

/-- `ceil(dpi/40)` as used by the spec's description of the bucket
transform. -/
def ceilDiv40 (dpi : Nat) : Nat := (dpi + 40 - 1) / 40

/-- Written from the spec's words (section 4.1 / testable property 1): the
eight-bucket cascade over `t = ceil(dpi/40)`, boundary values resolving to
the lower-indexed bucket, anything past the last range yielding no
bucket. -/
def densityBucketSpec (t : Nat) : Option (List String) :=
  if t ≤ 3 then some ["ldpi"]
  else if t ≤ 4 then some ["mdpi"]
  else if t ≤ 6 then some ["tvdpi", "hdpi"]
  else if t ≤ 8 then some ["xhdpi"]
  else if t ≤ 12 then some ["xxhdpi"]
  else if t ≤ 16 then some ["xxxhdpi"]
  else none

/-! ## Split selection (src lines 207-226, 320-350) -/

/-- One entry of `manifest["split_apks"]`: a dict with `"id"` and `"file"`. -/
structure SplitApk where
  id : String
  file : String
deriving DecidableEq

/-- `config["language"]` read as a list (the key is initialised to `[]` and
only ever holds a list). -/
def langOf (config : Dict) : List String :=
  match dget config "language" with
  | some (PyVal.list l) => l
  | _ => []

/-- One iteration of the `build_xapk_config` loop (src lines 211-224).
The drawable comparison at src lines 214-216 compares the split dict `i`
itself against the string `f"split_config.{d}.apk"`; in Python a dict never
equals a string, so that branch can never fire and contributes nothing. -/
def xapkStep (device : Device) (st : Dict × List PyVal) (i : SplitApk) : Dict × List PyVal :=
  let config := st.1
  let install := st.2
  let config :=
    if i.id = "config." ++ pyReplaceDash device.abi then dset config "abi" (PyVal.str i.file)
    else config
  if i.id = "config." ++ device.locale then
    (dset config "language" (PyVal.list (i.file :: langOf config)), install)
  else if abiIds.contains i.id || pyEndsWith i.id "dpi" then
    (dset config (splitGet1 i.id) (PyVal.str i.file), install)
  else if languageIds.contains i.id then
    (dset config "language" (PyVal.list (langOf config ++ [i.file])), install)
  else
    (config, install ++ [PyVal.str i.file])

/-- `build_xapk_config` (src lines 207-226). -/
def build_xapk_config (device : Device) (split_apks : List SplitApk) (install : List PyVal) :
    Dict × List PyVal :=
  split_apks.foldl (xapkStep device) ([("language", PyVal.list [])], install)

/-- The fallback loop of `config_abi` (src lines 324-328). -/
def abiWalk (config : Dict) : List String → List PyVal
  | [] => []
  | n :: rest =>
    let k := pyReplaceDash n
    if pyTruthy (dget config k) then [(dget config k).getD (PyVal.str "")]
    else abiWalk config rest

/-- `config_abi` (src lines 320-329). -/
def config_abi (config : Dict) (install : List PyVal) (abilist : List String) :
    Dict × List PyVal :=
  if pyTruthy (dget config "abi") then
    (config, install ++ [(dget config "abi").getD (PyVal.str "")])
  else (config, install ++ abiWalk config abilist)

/-- `_drawableList`, src line 336. -/
def _drawableList : List String :=
  ["xxxhdpi", "xxhdpi", "xhdpi", "hdpi", "tvdpi", "mdpi", "ldpi", "nodpi"]

def drawableWalk (config : Dict) : List String → List PyVal
  | [] => []
  | d :: rest =>
    if pyTruthy (dget config d) then [(dget config d).getD (PyVal.str "")]
    else drawableWalk config rest

/-- `config_drawable` (src lines 332-341). -/
def config_drawable (config : Dict) (install : List PyVal) : Dict × List PyVal :=
  if pyTruthy (dget config "drawable") then
    (config, install ++ [(dget config "drawable").getD (PyVal.str "")])
  else (config, install ++ drawableWalk config _drawableList)

/-- `config_language` (src lines 344-350): appends `config["language"][0]`
when the language list is nonempty, otherwise only logs a warning. -/
def config_language (config : Dict) (install : List PyVal) : Dict × List PyVal :=
  if pyTruthy (dget config "language") then
    (config, install ++ [PyVal.str ((langOf config).headD "")])
  else (config, install)

/-- Written from the spec's words (section 4.3, ABI rule): exact primary-ABI
match wins outright; otherwise the first `abiList` entry (in reported order)
with a matching artifact provides the split; otherwise no ABI split. -/
def abiSpecSelect (device : Device) (splits : List SplitApk) : Option String :=
  match splits.find? (fun a => a.id == "config." ++ pyReplaceDash device.abi) with
  | some a => some a.file
  | none =>
    match device.abilist.find?
        (fun n => splits.any (fun a => a.id == "config." ++ pyReplaceDash n)) with
    | some n => (splits.find? (fun a => a.id == "config." ++ pyReplaceDash n)).map (fun a => a.file)
    | none => none

/-- The files of the recognised language splits, in enumeration order (the
entries `build_xapk_config` appends to `config["language"]` when none
matches the device locale). -/
def langFiles (splits : List SplitApk) : List String :=
  (splits.filter (fun a => languageIds.contains a.id)).map (fun a => a.file)

/-- The effect of one `build_xapk_config` iteration on the
`config["language"]` list, read off the branch structure of `xapkStep`. -/
def langUpdStep (device : Device) (i : SplitApk) (g : List String) : List String :=
  if i.id = "config." ++ device.locale then i.file :: g
  else if abiIds.contains i.id || pyEndsWith i.id "dpi" then g
  else if languageIds.contains i.id then g ++ [i.file]
  else g

/-! ## Completed processes and `run_msg` (src lines 842-850) -/

/-- A `subprocess.CompletedProcess` with captured, already-decoded output
(`tostr` of the raw bytes; an empty string stands for empty bytes). -/
structure ProcResult where
  returncode : Int
  stdout : String
  stderr : String
deriving DecidableEq

/-- `run_msg` (src lines 842-850): returns the process and the decoded
stderr when stderr is non-empty, else the decoded stdout when non-empty,
else the empty string. -/
def run_msg (r : ProcResult) : ProcResult × String :=
  if !(r.stderr == "") then (r, r.stderr)
  else if !(r.stdout == "") then (r, r.stdout)
  else (r, "")

/-- The message half of `run_msg`. -/
def msgOf (r : ProcResult) : String := (run_msg r).2

/-! ## Install engine (src lines 280-297, 462-489, 619-640) -/

/-- One bridge answer to an `adb install` attempt: the exit status and the
message text `run_msg` would hand back. -/
structure AttemptResult where
  returncode : Int
  msg : String
deriving DecidableEq

/-- Externally visible actions of one `install_apk` activation, in order:
the `aapt` manifest dump, the `pm dump` version query of `checkVersion`,
the `check_by_manifest` pre-flight, the bridge install command with its
flag argument, and the uninstall-then-reinstall excursion of the `-r`
branch. -/
inductive ApkEv
  | manifestDump
  | versionCheck
  | preflight
  | installCmd (flags : String)
  | uninstallRun
deriving DecidableEq

inductive ApkOut
  | success (flags : String)
  | exitMsg (m : String)
  | bridgeExhausted
deriving DecidableEq

/-- The per-install facts `install_apk` consults: the device SDK, the
manifest's `min_sdk_version` and native-code list, the device abilist, and
whether the `uninstall` excursion of the `-r` branch returns (it raises
SystemExit when its backup fails; when it returns, its value is a
`CompletedProcess`, which is always truthy). -/
structure EngineEnv where
  deviceSdk : Int
  minSdk : Int
  native_code : List String
  abilist : List String
  uninstallOk : Bool

/-- `findabi` (src lines 426-430). -/
def findabi (native_code : List String) (abilist : List String) : Bool :=
  abilist.any (fun i => native_code.contains i)

/-- The control skeleton of `check_by_manifest` (src lines 280-297): exit
with the SDK message when the device SDK is below the manifest minimum,
exit on a native-code/abilist mismatch, otherwise return (the
target-SDK branch only logs). -/
def check_by_manifest (sdk min_sdk : Int) (native_code : List String)
    (abilist : List String) : Except String Unit :=
  if sdk < min_sdk then Except.error sdktoolow
  else if !native_code.isEmpty && !findabi native_code abilist then
    Except.error "Installation failed: abi mismatch"
  else Except.ok ()

/-- `install_apk` (src lines 462-489) as a function of the sequence of
bridge answers to its successive install attempts (one answer consumed per
attempt).  Each activation re-runs `dump`, `checkVersion` and
`check_by_manifest` (src lines 465-468) before issuing the install command;
on failure the flag cascade is `-rtd` to `-r` (any message), `-r` to the
`uninstall` excursion and `""`, and any other flag retries with `-t`
whenever the message contains INSTALL_FAILED_TEST_ONLY, else exits.
`dump` and `checkVersion` are recorded as events; their own exit paths
(also prior to any install command) are not the subject of the engine
claims and are elided. -/
def install_apk : EngineEnv → String → List AttemptResult → List ApkEv × ApkOut
  | env, _, [] =>
    match check_by_manifest env.deviceSdk env.minSdk env.native_code env.abilist with
    | Except.error m =>
      ([ApkEv.manifestDump, ApkEv.versionCheck, ApkEv.preflight], ApkOut.exitMsg m)
    | Except.ok _ =>
      ([ApkEv.manifestDump, ApkEv.versionCheck, ApkEv.preflight], ApkOut.bridgeExhausted)
  | env, abc, r :: rest =>
    match check_by_manifest env.deviceSdk env.minSdk env.native_code env.abilist with
    | Except.error m =>
      ([ApkEv.manifestDump, ApkEv.versionCheck, ApkEv.preflight], ApkOut.exitMsg m)
    | Except.ok _ =>
      let trace := [ApkEv.manifestDump, ApkEv.versionCheck, ApkEv.preflight,
        ApkEv.installCmd abc]
      if r.returncode == 0 then (trace, ApkOut.success abc)
      else if abc = "-rtd" then
        let next := install_apk env "-r" rest
        (trace ++ next.1, next.2)
      else if abc = "-r" then
        if env.uninstallOk then
          let next := install_apk env "" rest
          (trace ++ ApkEv.uninstallRun :: next.1, next.2)
        else (trace ++ [ApkEv.uninstallRun], ApkOut.exitMsg "backup failed")
      else if pyIn "INSTALL_FAILED_TEST_ONLY" r.msg then
        let next := install_apk env "-t" rest
        (trace ++ next.1, next.2)
      else (trace, ApkOut.exitMsg "1")

inductive MOut
  | success
  | fallbackInstallBase
  | failedReturn
  | bridgeExhausted
deriving DecidableEq

/-- `install_multiple` (src lines 619-640) as a function of the sequence of
bridge answers; the first component lists the flag argument of each
attempt.  Note the source compares `install[1]` against the literal `'r'`
(src line 627), not `'-r'`, so after the `-rtd` to `-r` relaxation a second
failure matches no branch and the function returns the failing run. -/
def install_multiple (flag : String) (rs : List AttemptResult) : List String × MOut :=
  match rs with
  | [] => ([], MOut.bridgeExhausted)
  | r :: rest =>
    if r.returncode == 0 then ([flag], MOut.success)
    else if flag = "-rtd" then
      let next := install_multiple "-r" rest
      (flag :: next.1, next.2)
    else if flag = "r" then
      let next := install_multiple "" rest
      (flag :: next.1, next.2)
    else if flag = "" then ([flag], MOut.fallbackInstallBase)
    else ([flag], MOut.failedReturn)

def countInstall : List ApkEv → String → Nat
  | [], _ => 0
  | ApkEv.installCmd f :: t, g => (if f = g then 1 else 0) + countInstall t g
  | _ :: t, g => countInstall t g

def countPreflight : List ApkEv → Nat
  | [] => 0
  | ApkEv.preflight :: t => 1 + countPreflight t
  | _ :: t => countPreflight t

def countInstallAll : List ApkEv → Nat
  | [] => 0
  | ApkEv.installCmd _ :: t => 1 + countInstallAll t
  | _ :: t => countInstallAll t

/-! ## Manifest extraction (src lines 372-423, `dump` / `dump_py`) -/

/-- The Python exceptions the extraction paths can raise. -/
inductive PyErr
  | fileNotFoundError
  | valueError (s : String)
  | indexError
  | keyError (s : String)
deriving DecidableEq

/-- The manifest dict both strategies build: keys are present only when the
corresponding line or attribute was seen. -/
structure PyManifest where
  package_name : Option String
  versionCode : Option Int
  min_sdk_version : Option Int
  target_sdk_version : Option Int
  native_code : List String
deriving DecidableEq

/-- Outcome of `subprocess.run(["aapt", ...])`: the binary may be absent
(FileNotFoundError) or run to completion. -/
inductive ToolRun
  | missing
  | ran (r : ProcResult)

def quoteC : Char := Char.ofNat 39

def reNativeCodeAux : Nat → List Char → List String
  | 0, _ => []
  | _ + 1, [] => []
  | fuel + 1, c :: rest =>
    if c = quoteC then
      let tok := rest.takeWhile fun x => !(x == Char.ofNat 44) && !(x == quoteC)
      match rest.drop tok.length with
      | q :: tail =>
        if q = quoteC && !tok.isEmpty then String.mk tok :: reNativeCodeAux fuel tail
        else reNativeCodeAux fuel rest
      | [] => reNativeCodeAux fuel rest
    else reNativeCodeAux fuel rest

/-- `re.findall(r"'([^,']+)'", line)` (src line 386): quoted runs of
characters containing neither comma nor quote.  The fuel argument of the
auxiliary is the list length, which bounds the scan. -/
def reNativeCode (l : List Char) : List String := reNativeCodeAux l.length l

/-- One iteration of the `dump` parse loop (src lines 380-394).  Note the
source tests `"sdkVersion:" in line` before `"targetSdkVersion:" in line`,
and the former substring occurs in the latter, so a targetSdkVersion line
is consumed by the first branch.  `int()` failures on the sdk lines
propagate; on the version-code field the source catches ValueError and
stores 0. -/
def parseLine (m : PyManifest) (line : String) : Except PyErr PyManifest :=
  if pyIn "sdkVersion:" line then
    match (pySplit (pyStrip line) quoteC).get? 1 with
    | none => Except.error PyErr.indexError
    | some v =>
      match pyIntOpt v with
      | none => Except.error (PyErr.valueError v)
      | some n =>
        Except.ok (PyManifest.mk m.package_name m.versionCode (some n)
          m.target_sdk_version m.native_code)
  else if pyIn "targetSdkVersion:" line then
    match (pySplit (pyStrip line) quoteC).get? 1 with
    | none => Except.error PyErr.indexError
    | some v =>
      match pyIntOpt v with
      | none => Except.error (PyErr.valueError v)
      | some n =>
        Except.ok (PyManifest.mk m.package_name m.versionCode m.min_sdk_version
          (some n) m.native_code)
  else if pyIn "native-code:" line then
    Except.ok (PyManifest.mk m.package_name m.versionCode m.min_sdk_version
      m.target_sdk_version (m.native_code ++ reNativeCode line.data))
  else if pyIn "package: name=" line then
    let parts := pySplit (pyStrip line) quoteC
    match parts.get? 1 with
    | none => Except.error PyErr.indexError
    | some pn =>
      match parts.get? 3 with
      | none => Except.error PyErr.indexError
      | some vc =>
        Except.ok (PyManifest.mk (some pn) (some ((pyIntOpt vc).getD 0))
          m.min_sdk_version m.target_sdk_version m.native_code)
  else Except.ok m

def parseBadging (msg : String) : Except PyErr PyManifest :=
  (pySplit msg (Char.ofNat 10)).foldlM parseLine (PyManifest.mk none none none none [])

/-- The decoded `AndroidManifest.xml` attributes `dump_py` reads;
`minidom.getAttribute` yields `""` for an absent attribute. -/
structure AxmlDoc where
  package : String
  versionCode : String
  minSdkVersion : String
  targetSdkVersion : String
deriving DecidableEq

/-- The package archive as `dump_py` sees it: the manifest entry (absent
means the extraction/decode raises) and the zip name list. -/
structure ZipSrc where
  axml : Option AxmlDoc
  namelist : List String

/-- `dump_py` (src lines 398-423).  `int()` failures on versionCode and
minSdkVersion propagate uncaught; on targetSdkVersion the ValueError is
caught and the key left unset.  `list(set(...))` on the native-code
segments is modelled as first-occurrence deduplication (the set order is
unspecified in Python and no property here depends on it). -/
def dump_py (z : ZipSrc) : Except PyErr PyManifest :=
  match z.axml with
  | none => Except.error (PyErr.keyError "AndroidManifest.xml")
  | some doc =>
    match pyIntOpt doc.versionCode with
    | none => Except.error (PyErr.valueError doc.versionCode)
    | some vc =>
      match pyIntOpt doc.minSdkVersion with
      | none => Except.error (PyErr.valueError doc.minSdkVersion)
      | some ms =>
        let tgt := pyIntOpt doc.targetSdkVersion
        let native :=
          ((z.namelist.filter (fun i => pyStartsWith i "lib/")).map
            (fun i => ((pySplit i (Char.ofNat 47)).get? 1).getD "")).eraseDups
        Except.ok (PyManifest.mk (some doc.package) (some vc) (some ms) tgt native)

/-- `dump` (src lines 372-395).  `subprocess.run` raises FileNotFoundError
when `aapt` is absent and `dump` has no handler for it, so the error
propagates; only a completed run with nonzero status reaches the
`dump_py` fallback. -/
def dump (aapt : ToolRun) (z : ZipSrc) : Except PyErr PyManifest :=
  match aapt with
  | ToolRun.missing => Except.error PyErr.fileNotFoundError
  | ToolRun.ran r =>
    let m := msgOf r
    if r.returncode ≠ 0 then dump_py z
    else parseBadging m

/-! ## Backup, uninstall, restore (src lines 775-797, 813-839, 853-866) -/

/-- The device bridge: a command line mapped to its completed process. -/
abbrev Oracle := List String → ProcResult

/-- `Device.adb(cmd)` command line (no `-s` serial in the modelled runs). -/
def adbCmd (args : List String) : List String := "adb" :: args

/-- `Device.shell(cmd)` command line. -/
def shellCmd (args : List String) : List String := adbCmd ("shell" :: args)

/-- Externally visible actions of the backup/uninstall/restore subsystem:
bridge commands, plus the three reinstall delegations of `restore`
(per-APK `install_apk`, single-file `main`, obb-less `install_multiple`),
each recorded as one event. -/
inductive BEv
  | bridge (cmd : List String)
  | apkReinstall (file : String)
  | mainReinstall (file : String)
  | multiReinstall (install : List String)
deriving DecidableEq

/-- The pull loop of `pull_apk` (src lines 786-789): one `adb pull` per
line of the `pm path` stdout, exiting on the first failing pull. -/
def pullLoop (o : Oracle) (dirPath : String) : List String → List BEv × Except String Unit
  | [] => ([], Except.ok ())
  | i :: rest =>
    let c := adbCmd ["pull", pyStrip (pyDrop 8 i), dirPath]
    let r := o c
    if r.returncode ≠ 0 then ([BEv.bridge c], Except.error (msgOf r))
    else
      let next := pullLoop o dirPath rest
      (BEv.bridge c :: next.1, next.2)

/-- `pull_apk` (src lines 775-797): query `pm path`, exit on failure, pull
every reported path into the local `root/package` directory, then pull the
obb directory tolerating only "No such file or directory" / "does not
exist" failures.  The local mkdir/delete steps touch no device state and
are not modelled; the `TypeError` guard is unreachable with piped output. -/
def pull_apk (o : Oracle) (package root : String) : List BEv × Except String String :=
  let c0 := shellCmd ["pm", "path", package]
  let r0 := o c0
  if r0.returncode ≠ 0 then ([BEv.bridge c0], Except.error (msgOf r0))
  else
    let dirPath := pyJoin root package
    let lines := pySplit (pyStrip r0.stdout) (Char.ofNat 10)
    match pullLoop o dirPath lines with
    | (t, Except.error e) => (BEv.bridge c0 :: t, Except.error e)
    | (t, Except.ok _) =>
      let c1 := adbCmd ["pull", "/storage/emulated/0/Android/obb/" ++ package, dirPath]
      let r1 := o c1
      let m1 := msgOf r1
      if r1.returncode ≠ 0 ∧ pyIn "No such file or directory" m1 = false ∧
          pyIn "does not exist" m1 = false then
        (BEv.bridge c0 :: t ++ [BEv.bridge c1], Except.error m1)
      else
        (BEv.bridge c0 :: t ++ [BEv.bridge c1], Except.ok dirPath)

/-- The obb push target of `restore` (src line 828). -/
def obbRemote (dirPath : String) : String :=
  "/storage/emulated/0/Android/obb/" ++ pyBasename dirPath

/-- What one directory entry contributes inside the obb branch of
`restore` (src lines 823-829): an `install_apk` delegation for `.apk`
entries, an `adb push` for `.obb` entries, nothing otherwise. -/
def restoreEvOf (dirPath : String) (i : String) : Option BEv :=
  if pyEndsWith i ".apk" then some (BEv.apkReinstall (pyJoin dirPath i))
  else if pyEndsWith i ".obb" then
    some (BEv.bridge (adbCmd ["push", pyJoin dirPath i, obbRemote dirPath]))
  else none

def restoreLoopEv (dirPath : String) : List String → List BEv
  | [] => []
  | i :: rest =>
    match restoreEvOf dirPath i with
    | some e => e :: restoreLoopEv dirPath rest
    | none => restoreLoopEv dirPath rest

/-- `restore` (src lines 813-839).  The directory listing is a parameter
(`allFile`).  When any entry ends in `.obb` the single pass over the
listing interleaves APK reinstalls and obb pushes in enumeration order;
otherwise an empty backup exits, one file goes through `main`, several go
through one `install_multiple`.  The delegated reinstalls are recorded as
events; their internal bridge traffic is outside this subsystem's claims. -/
def restore (o : Oracle) (dirPath root : String) (allFile : List String) :
    List BEv × Except String Unit :=
  if allFile.any (fun i => pyEndsWith i ".obb") then
    (restoreLoopEv dirPath allFile, Except.ok ())
  else if allFile.length = 0 then ([], Except.error "backup folder is empty!")
  else if allFile.length = 1 then ([BEv.mainReinstall (allFile.headD "")], Except.ok ())
  else
    ([BEv.multiReinstall (["install-multiple", "-rtd"] ++ allFile)], Except.ok ())

/-- `uninstall` (src lines 853-866): back up via `pull_apk` (whose failures
exit before anything destructive), guard the `not dir_path` corner, issue
`pm uninstall -k`, and on a nonzero status immediately run `restore` over
the backup directory listing (`fs dirPath`), finally returning the
completed uninstall process (SystemExit raised inside `restore` is not an
`Exception` in Python 3 and propagates). -/
def uninstall (o : Oracle) (fs : String → List String) (package_name root : String) :
    List BEv × Except String ProcResult :=
  match pull_apk o package_name root with
  | (t, Except.error e) => (t, Except.error e)
  | (t, Except.ok dirPath) =>
    if dirPath = "" then (t, Except.error "An error occurred while backing up the file")
    else
      let c := shellCmd ["pm", "uninstall", "-k", package_name]
      let r := o c
      if r.returncode ≠ 0 then
        match restore o dirPath root (fs dirPath) with
        | (t2, Except.ok _) => (t ++ BEv.bridge c :: t2, Except.ok r)
        | (t2, Except.error e) => (t ++ BEv.bridge c :: t2, Except.error e)
      else (t ++ [BEv.bridge c], Except.ok r)

/-- Fixture device: locale `pt`, primary ABI arm64-v8a (scenario B of the
spec). -/
def devPt : Device := ⟨"arm64-v8a", ["arm64-v8a"], ["xxhdpi"], "pt", 30⟩

/-- Fixture device: locale `en`, primary ABI arm64-v8a with a 32-bit
fallback (scenario A of the spec). -/
def devA : Device := ⟨"arm64-v8a", ["arm64-v8a", "armeabi-v7a"], ["xxhdpi"], "en", 30⟩

/-- Fixture split set for scenario A (base splits omitted; they take the
unconditional branch and do not interact with ABI selection). -/
def splitsA : List SplitApk :=
  [⟨"config.arm64_v8a", "a.apk"⟩, ⟨"config.armeabi_v7a", "b.apk"⟩,
   ⟨"config.en", "e.apk"⟩, ⟨"config.xxhdpi", "d.apk"⟩]

/-- Fixture bridge oracle for the uninstall-failure scenario: `pm path`
reports one installed artifact, `pm uninstall -k` exits 1, every other
command succeeds. -/
def uninstallFailOracle : Oracle := fun c =>
  if c = shellCmd ["pm", "path", "p"] then ⟨0, "package:/a.apk", ""⟩
  else if c = shellCmd ["pm", "uninstall", "-k", "p"] then ⟨1, "", "Failure"⟩
  else ⟨0, "", ""⟩

/-- Fixture backup-directory listing: an obb-less two-file backup. -/
def twoApkListing : String → List String := fun _ => ["x.apk", "y.apk"]

/-! ## Helper lemmas on the embedding -/

theorem dget_dset (d : Dict) (k : String) (v : PyVal) (key : String) :
    dget (dset d k v) key = if k = key then some v else dget d key := by
  induction d with
  | nil => simp [dset, dget]
  | cons p rest ih =>
    obtain ⟨pk, pv⟩ := p
    by_cases h : pk = k
    · subst h
      simp only [dset, if_pos rfl, dget]
      by_cases h2 : pk = key <;> simp [h2]
    · simp only [dset, if_neg h, dget]
      by_cases h2 : pk = key
      · rw [if_pos h2, if_pos h2, if_neg (fun h3 => h (h2.trans h3.symm))]
      · rw [if_neg h2, if_neg h2, ih]

theorem findq_append {α : Type} (p : α → Bool) (l1 l2 : List α) :
    (l1 ++ l2).find? p = match l1.find? p with
      | some a => some a
      | none => l2.find? p := by
  induction l1 with
  | nil => simp
  | cons a t ih =>
    cases hpa : p a <;> simp [List.find?_cons, hpa, ih]

theorem foldl_last_write {α β γ : Type} (step : β → α → β) (read : β → Option γ)
    (p : α → Bool) (w : α → γ) (l : List α)
    (hstep : ∀ st, ∀ i ∈ l, read (step st i) = if p i = true then some (w i) else read st) :
    ∀ st, read (List.foldl step st l) =
      match l.reverse.find? p with
      | some a => some (w a)
      | none => read st := by
  induction l with
  | nil => intro st; simp
  | cons a t ih =>
    intro st
    rw [List.foldl_cons]
    rw [ih (fun st2 i hi => hstep st2 i (List.mem_cons_of_mem a hi)) (step st a)]
    rw [List.reverse_cons, findq_append]
    have h1 := hstep st a (List.mem_cons_self a t)
    cases hf : t.reverse.find? p
    · simp only [hf]
      rw [h1]
      cases hpa : p a <;> simp [List.find?, hpa]
    · simp [hf]

theorem nodup_map_inj {α β : Type} {f : α → β} {l : List α} (h : (l.map f).Nodup) :
    ∀ a ∈ l, ∀ b ∈ l, f a = f b → a = b := by
  induction l with
  | nil => simp
  | cons x t ih =>
    rw [List.map_cons, List.nodup_cons] at h
    intro a ha b hb hfab
    rcases List.mem_cons.mp ha with rfl | ha2 <;> rcases List.mem_cons.mp hb with rfl | hb2
    · rfl
    · exact absurd (hfab ▸ List.mem_map_of_mem f hb2) h.1
    · exact absurd (hfab ▸ List.mem_map_of_mem f ha2) h.1
    · exact ih h.2 a ha2 b hb2 hfab

theorem findq_reverse_of_unique {α : Type} (l : List α) (p : α → Bool)
    (h : ∀ a ∈ l, ∀ b ∈ l, p a = true → p b = true → a = b) :
    l.reverse.find? p = l.find? p := by
  induction l with
  | nil => simp
  | cons a t ih =>
    have ih2 := ih (fun x hx y hy => h x (List.mem_cons_of_mem a hx) y (List.mem_cons_of_mem a hy))
    rw [List.reverse_cons, findq_append, ih2]
    cases hf : t.find? p
    · cases hpa : p a <;> simp [List.find?, hpa, hf]
    · rename_i b
      have hb1 : b ∈ t := List.mem_of_find?_eq_some hf
      have hb2 : p b = true := List.find?_some hf
      cases hpa : p a
      · simp [List.find?, hpa, hf]
      · have hab : a = b := h a (List.mem_cons_self a t) b (List.mem_cons_of_mem a hb1) hpa hb2
        simp [List.find?, hpa, hab, hb2]

/-! ## C4: density bucketing -/

/-- C4: for every dpi value, `getdrawable` computes `t = ceil(dpi/40)` and
maps it per the ranges 0-3 ldpi, 3-4 mdpi, 4-6 tvdpi/hdpi, 6-8 xhdpi,
8-12 xxhdpi, 12-16 xxxhdpi, each boundary value resolving to the
lower-indexed bucket, and a transform outside all ranges yielding no
bucket. -/
theorem getdrawable_matches_bucket_spec (dpi : Nat) :
    getdrawable dpi = densityBucketSpec (ceilDiv40 dpi) := by
  have h : ceilDiv40 dpi = (dpi + 39) / 40 := by unfold ceilDiv40; omega
  rw [h]
  simp only [getdrawable, densityBucketSpec]
  set d := (dpi + 39) / 40 with hd
  split_ifs <;> first | rfl | omega

/-! ## C10: run_msg stderr preference -/

/-- C10: `run_msg` returns the decoded stderr text whenever stderr is
non-empty (independently of the exit status), and the decoded stdout text
only when stderr is empty (the empty string when both are empty, which
coincides with the stdout text). -/
theorem run_msg_prefers_stderr (r : ProcResult) :
    (r.stderr ≠ "" → (run_msg r).2 = r.stderr) ∧
    (r.stderr = "" → (run_msg r).2 = r.stdout) := by
  unfold run_msg
  constructor
  · intro h
    simp [h]
  · intro h
    by_cases h2 : r.stdout = "" <;> simp [h, h2]

/-- Witness for C10: a status-0 process with both streams non-empty yields
its stderr text. -/
theorem run_msg_prefers_stderr_witness :
    ("err" : String) ≠ "" ∧ (run_msg ⟨0, "out", "err"⟩).2 = "err" :=
  ⟨by decide, (run_msg_prefers_stderr ⟨0, "out", "err"⟩).1 (by decide)⟩

/-! ## C1: retry bounding -/

/-- C1 counterexample: with every bridge answer failing with a message
containing INSTALL_FAILED_TEST_ONLY, `install_apk` attempts the
test-allowed flag twice within the first five answers (and is still
retrying when the answers run out), so the test-allowed configuration is
not tried at most once per install and the retry recursion is not bounded
over all failure-signal sequences. -/
theorem install_apk_test_flag_retried_twice :
    countInstall (install_apk ⟨30, 1, [], ["arm64-v8a"], true⟩ "-rtd"
      (List.replicate 5 ⟨1, "INSTALL_FAILED_TEST_ONLY"⟩)).1 "-t" = 2 ∧
    (install_apk ⟨30, 1, [], ["arm64-v8a"], true⟩ "-rtd"
      (List.replicate 5 ⟨1, "INSTALL_FAILED_TEST_ONLY"⟩)).2 = ApkOut.bridgeExhausted := by
  decide

theorem countInstall_append (t1 t2 : List ApkEv) (g : String) :
    countInstall (t1 ++ t2) g = countInstall t1 g + countInstall t2 g := by
  induction t1 with
  | nil => simp [countInstall]
  | cons e t ih => cases e <;> simp [countInstall, ih, Nat.add_assoc]


theorem install_apk_count_t (env : EngineEnv) (rs : List AttemptResult) (g : String)
    (hg : g ≠ "-t") :
    countInstall (install_apk env "-t" rs).1 g = 0 := by
  induction rs with
  | nil =>
    unfold install_apk
    cases check_by_manifest env.deviceSdk env.minSdk env.native_code env.abilist <;>
      simp [countInstall]
  | cons r rest ih =>
    unfold install_apk
    cases check_by_manifest env.deviceSdk env.minSdk env.native_code env.abilist
    · simp [countInstall]
    · by_cases h0 : (r.returncode == 0) = true
      · simp [h0, countInstall, hg.symm]
      · by_cases h3 : pyIn "INSTALL_FAILED_TEST_ONLY" r.msg = true
        · simp [h0, h3, countInstall, countInstall_append, ih,
            (by decide : ¬(("-t" : String) = "-rtd")), (by decide : ¬(("-t" : String) = "-r")),
            hg.symm]
        · simp [h0, h3, countInstall, countInstall_append,
            (by decide : ¬(("-t" : String) = "-rtd")), (by decide : ¬(("-t" : String) = "-r")),
            hg.symm]

theorem install_apk_count_empty (env : EngineEnv) (rs : List AttemptResult) (g : String)
    (hg : g ≠ "-t") (hg2 : g ≠ "") :
    countInstall (install_apk env "" rs).1 g = 0 := by
  cases rs with
  | nil =>
    unfold install_apk
    cases check_by_manifest env.deviceSdk env.minSdk env.native_code env.abilist <;>
      simp [countInstall]
  | cons r rest =>
    unfold install_apk
    cases check_by_manifest env.deviceSdk env.minSdk env.native_code env.abilist
    · simp [countInstall]
    · by_cases h0 : (r.returncode == 0) = true
      · simp [h0, countInstall, hg2.symm]
      · by_cases h3 : pyIn "INSTALL_FAILED_TEST_ONLY" r.msg = true
        · simp [h0, h3, countInstall, countInstall_append,
            install_apk_count_t env rest g hg,
            (by decide : ¬(("" : String) = "-rtd")), (by decide : ¬(("" : String) = "-r")),
            hg2.symm]
        · simp [h0, h3, countInstall, countInstall_append,
            (by decide : ¬(("" : String) = "-rtd")), (by decide : ¬(("" : String) = "-r")),
            hg2.symm]

theorem install_apk_count_empty_self (env : EngineEnv) (rs : List AttemptResult) :
    countInstall (install_apk env "" rs).1 "" ≤ 1 := by
  cases rs with
  | nil =>
    unfold install_apk
    cases check_by_manifest env.deviceSdk env.minSdk env.native_code env.abilist <;>
      simp [countInstall]
  | cons r rest =>
    unfold install_apk
    cases check_by_manifest env.deviceSdk env.minSdk env.native_code env.abilist
    · simp [countInstall]
    · by_cases h0 : (r.returncode == 0) = true
      · simp [h0, countInstall]
      · by_cases h3 : pyIn "INSTALL_FAILED_TEST_ONLY" r.msg = true
        · simp [h0, h3, countInstall, countInstall_append,
            install_apk_count_t env rest "" (by decide),
            (by decide : ¬(("" : String) = "-rtd")), (by decide : ¬(("" : String) = "-r"))]
        · simp [h0, h3, countInstall, countInstall_append,
            (by decide : ¬(("" : String) = "-rtd")), (by decide : ¬(("" : String) = "-r"))]

theorem install_apk_count_r (env : EngineEnv) (rs : List AttemptResult) (g : String)
    (hg : g ≠ "-t") (hg2 : g ≠ "") (hg3 : g ≠ "-r") :
    countInstall (install_apk env "-r" rs).1 g = 0 := by
  cases rs with
  | nil =>
    unfold install_apk
    cases check_by_manifest env.deviceSdk env.minSdk env.native_code env.abilist <;>
      simp [countInstall]
  | cons r rest =>
    unfold install_apk
    cases check_by_manifest env.deviceSdk env.minSdk env.native_code env.abilist
    · simp [countInstall]
    · by_cases h0 : (r.returncode == 0) = true
      · simp [h0, countInstall, hg3.symm]
      · by_cases hu : env.uninstallOk
        · simp [h0, hu, countInstall, countInstall_append,
            install_apk_count_empty env rest g hg hg2,
            (by decide : ¬(("-r" : String) = "-rtd")), hg3.symm]
        · simp [h0, hu, countInstall, countInstall_append,
            (by decide : ¬(("-r" : String) = "-rtd")), hg3.symm]

theorem install_apk_count_r_self (env : EngineEnv) (rs : List AttemptResult) (g : String)
    (hgr : g = "-r" ∨ g = "") :
    countInstall (install_apk env "-r" rs).1 g ≤ 1 := by
  cases rs with
  | nil =>
    unfold install_apk
    cases check_by_manifest env.deviceSdk env.minSdk env.native_code env.abilist <;>
      simp [countInstall]
  | cons r rest =>
    unfold install_apk
    cases check_by_manifest env.deviceSdk env.minSdk env.native_code env.abilist
    · simp [countInstall]
    · by_cases h0 : (r.returncode == 0) = true
      · rcases hgr with rfl | rfl <;> simp [h0, countInstall]
      · by_cases hu : env.uninstallOk
        · rcases hgr with rfl | rfl
          · simp [h0, hu, countInstall, countInstall_append,
              install_apk_count_empty env rest "-r" (by decide) (by decide),
              (by decide : ¬(("-r" : String) = "-rtd"))]
          · have := install_apk_count_empty_self env rest
            simp [h0, hu, countInstall, countInstall_append,
              (by decide : ¬(("-r" : String) = "-rtd"))]
            omega
        · rcases hgr with rfl | rfl <;>
            simp [h0, hu, countInstall, countInstall_append,
              (by decide : ¬(("-r" : String) = "-rtd"))]

theorem install_multiple_r_short (rs : List AttemptResult) :
    (install_multiple "-r" rs).1.length ≤ 1 := by
  cases rs with
  | nil => simp [install_multiple]
  | cons r rest =>
    unfold install_multiple
    by_cases h0 : (r.returncode == 0) = true <;>
      simp [h0, (by decide : ¬(("-r" : String) = "-rtd")),
        (by decide : ¬(("-r" : String) = "r")), (by decide : ¬(("-r" : String) = ""))]

/-- C1 amended: the aggressive (`-rtd`), replace-only (`-r`) and no-flag
configurations are each attempted at most once per `install_apk` install,
and `install_multiple` makes at most two attempts from its aggressive
start; the test-allowed (`-t`) configuration, however, is re-attempted
whenever any later attempt fails with a message containing
INSTALL_FAILED_TEST_ONLY (see the counterexample), so the recursion is
bounded only over failure sequences that do not keep reporting
INSTALL_FAILED_TEST_ONLY after a test-allowed attempt. -/
theorem install_retry_flags_bounded :
    (∀ (env : EngineEnv) (rs : List AttemptResult),
      countInstall (install_apk env "-rtd" rs).1 "-rtd" ≤ 1 ∧
      countInstall (install_apk env "-rtd" rs).1 "-r" ≤ 1 ∧
      countInstall (install_apk env "-rtd" rs).1 "" ≤ 1) ∧
    (∀ rs : List AttemptResult, (install_multiple "-rtd" rs).1.length ≤ 2) := by
  constructor
  · intro env rs
    cases rs with
    | nil =>
      unfold install_apk
      cases check_by_manifest env.deviceSdk env.minSdk env.native_code env.abilist <;>
        simp [countInstall]
    | cons r rest =>
      unfold install_apk
      cases check_by_manifest env.deviceSdk env.minSdk env.native_code env.abilist
      · simp [countInstall]
      · by_cases h0 : (r.returncode == 0) = true
        · simp [h0, countInstall]
        · refine ⟨?_, ?_, ?_⟩
          · simp [h0, countInstall, countInstall_append,
              install_apk_count_r env rest "-rtd" (by decide) (by decide) (by decide)]
          · simp [h0, countInstall, countInstall_append,
              install_apk_count_r_self env rest "-r" (Or.inl rfl)]
          · simp [h0, countInstall, countInstall_append,
              install_apk_count_r_self env rest "" (Or.inr rfl)]
  · intro rs
    cases rs with
    | nil => simp [install_multiple]
    | cons r rest =>
      unfold install_multiple
      by_cases h0 : (r.returncode == 0) = true
      · simp [h0]
      · have h1 := install_multiple_r_short rest
        simp [h0]
        omega

/-- C9 counterexample: one failed aggressive attempt followed by a
successful replace-only retry runs the `check_by_manifest` pre-flight
twice within a single install, refuting the claim that the pre-flight
check runs once per install rather than once per retry (each recursive
`install_apk` activation re-runs `dump`, `checkVersion` and
`check_by_manifest`, src lines 465-468 and 479). -/
theorem preflight_runs_per_retry :
    countPreflight (install_apk ⟨30, 1, [], ["arm64-v8a"], true⟩ "-rtd"
      [⟨1, "failure"⟩, ⟨0, ""⟩]).1 = 2 ∧
    (install_apk ⟨30, 1, [], ["arm64-v8a"], true⟩ "-rtd"
      [⟨1, "failure"⟩, ⟨0, ""⟩]).2 = ApkOut.success "-r" := by
  decide

/-- C9 amended: when the device SDK is strictly below the manifest minimum,
`install_apk` exits with the SdkTooLow message before issuing any bridge
install command; the pre-flight check, however, is re-executed by every
retry activation, not once per install (see the counterexample). -/
theorem sdk_too_low_fails_before_install (env : EngineEnv) (abc : String)
    (rs : List AttemptResult) (h : env.deviceSdk < env.minSdk) :
    (install_apk env abc rs).2 = ApkOut.exitMsg sdktoolow ∧
    countInstallAll (install_apk env abc rs).1 = 0 := by
  have hc : check_by_manifest env.deviceSdk env.minSdk env.native_code env.abilist =
      Except.error sdktoolow := by
    unfold check_by_manifest
    rw [if_pos h]
  cases rs <;> (unfold install_apk; rw [hc]; simp [countInstallAll])

/-- Witness for C9 amended at device SDK 28 and manifest minimum 31. -/
theorem sdk_too_low_fails_before_install_witness :
    ((28 : Int) < 31) ∧
    ((install_apk ⟨28, 31, [], [], true⟩ "-rtd" [⟨1, "x"⟩]).2 = ApkOut.exitMsg sdktoolow ∧
     countInstallAll (install_apk ⟨28, 31, [], [], true⟩ "-rtd" [⟨1, "x"⟩]).1 = 0) :=
  ⟨by decide, sdk_too_low_fails_before_install ⟨28, 31, [], [], true⟩ "-rtd" [⟨1, "x"⟩] (by decide)⟩

/-! ## C6: restore ordering -/

/-- C6 counterexample: with the backup directory enumerated as
`["a.obb", "b.apk"]`, `restore` pushes the obb file to the device before
reinstalling the APK, refuting the claim that all APK installs strictly
precede all obb pushes regardless of enumeration order (the single loop at
src lines 823-829 processes entries in enumeration order). -/
theorem restore_pushes_obb_before_apk :
    (restore (fun _ => ⟨0, "", ""⟩) "r/p" "r" ["a.obb", "b.apk"]).1 =
      [BEv.bridge ["adb", "push", "r/p/a.obb", "/storage/emulated/0/Android/obb/p"],
       BEv.apkReinstall "r/p/b.apk"] := by
  decide

/-- C6 amended: when any `.obb` entry is present, `restore` performs one
pass over the directory listing in enumeration order, reinstalling each
`.apk` entry and pushing each `.obb` entry as it is encountered; APK
installs precede obb pushes only when the enumeration happens to list the
APKs first. -/
theorem restoreLoopEv_eq_filterMap (dirPath : String) (files : List String) :
    restoreLoopEv dirPath files = files.filterMap (restoreEvOf dirPath) := by
  induction files with
  | nil => rfl
  | cons i rest ih =>
    unfold restoreLoopEv
    rw [List.filterMap_cons]
    cases hfx : restoreEvOf dirPath i <;> simp [hfx, ih]

theorem restore_events_follow_enumeration (o : Oracle) (dirPath root : String)
    (files : List String) (h : files.any (fun i => pyEndsWith i ".obb") = true) :
    (restore o dirPath root files).1 = files.filterMap (restoreEvOf dirPath) := by
  unfold restore
  rw [if_pos h]
  simpa using restoreLoopEv_eq_filterMap dirPath files

/-- Witness for C6 amended on a one-entry obb backup. -/
theorem restore_events_follow_enumeration_witness :
    ((["a.obb"] : List String).any (fun i => pyEndsWith i ".obb") = true) ∧
    (restore (fun _ => ⟨0, "", ""⟩) "d" "r" ["a.obb"]).1 =
      (["a.obb"] : List String).filterMap (restoreEvOf "d") :=
  ⟨by decide, restore_events_follow_enumeration (fun _ => ⟨0, "", ""⟩) "d" "r" ["a.obb"] (by decide)⟩

/-! ## C8: manifest extraction failover -/

/-- C8 counterexample: with the dump tool missing, `dump` propagates
FileNotFoundError instead of falling over to `dump_py` (even though the
direct-decode strategy would succeed on this archive), and with the tool
exiting 0 with empty output, `dump` returns a manifest with none of
packageName, versionCode, minSdk populated and raises no error (the
repository defines no ManifestError at all). -/
theorem dump_missing_tool_and_empty_output :
    dump ToolRun.missing ⟨some ⟨"p", "7", "21", "30"⟩, []⟩ =
      Except.error PyErr.fileNotFoundError ∧
    dump (ToolRun.ran ⟨0, "", ""⟩) ⟨some ⟨"p", "7", "21", "30"⟩, []⟩ =
      Except.ok (PyManifest.mk none none none none []) := by
  exact ⟨rfl, rfl⟩

/-- C8 amended: `dump` falls over to `dump_py` exactly when the external
tool runs and exits nonzero; a missing tool raises an uncaught
FileNotFoundError.  `dump_py` populates packageName, versionCode and
minSdk or fails with an uncaught decode/parse error, while `dump` itself
populates only the fields whose output lines are present, returning an
arbitrarily incomplete manifest without error. -/
theorem dump_failover_characterization (z : ZipSrc) :
    dump ToolRun.missing z = Except.error PyErr.fileNotFoundError ∧
    (∀ r : ProcResult, r.returncode ≠ 0 → dump (ToolRun.ran r) z = dump_py z) ∧
    (∀ doc : AxmlDoc, ∀ nl : List String,
      (∃ m : PyManifest, dump_py ⟨some doc, nl⟩ = Except.ok m ∧
        m.package_name = some doc.package ∧ m.versionCode.isSome = true ∧
        m.min_sdk_version.isSome = true) ∨
      (∃ e : PyErr, dump_py ⟨some doc, nl⟩ = Except.error e)) := by
  refine ⟨rfl, ?_, ?_⟩
  · intro r h
    unfold dump
    dsimp only
    rw [if_pos h]
  · intro doc nl
    unfold dump_py
    dsimp only
    cases hvc : pyIntOpt doc.versionCode
    · exact Or.inr ⟨_, rfl⟩
    · cases hms : pyIntOpt doc.minSdkVersion
      · exact Or.inr ⟨_, rfl⟩
      · exact Or.inl ⟨_, rfl, rfl, rfl, rfl⟩

/-- Witness for C8 amended: a nonzero tool run falls over to `dump_py`. -/
theorem dump_failover_characterization_witness :
    ((1 : Int) ≠ 0) ∧
    dump (ToolRun.ran ⟨1, "", "boom"⟩) ⟨some ⟨"p", "7", "21", "30"⟩, []⟩ =
      dump_py ⟨some ⟨"p", "7", "21", "30"⟩, []⟩ :=
  ⟨by decide, (dump_failover_characterization ⟨some ⟨"p", "7", "21", "30"⟩, []⟩).2.1
    ⟨1, "", "boom"⟩ (by decide)⟩

/-! ## C5 and C7: backup before uninstall, failed-uninstall behaviour -/

theorem pullLoop_no_uninstall (o : Oracle) (dirPath pkg : String) (lines : List String) :
    BEv.bridge (shellCmd ["pm", "uninstall", "-k", pkg]) ∉ (pullLoop o dirPath lines).1 := by
  induction lines with
  | nil => simp [pullLoop]
  | cons i rest ih =>
    unfold pullLoop
    dsimp only
    by_cases h : (o (adbCmd ["pull", pyStrip (pyDrop 8 i), dirPath])).returncode ≠ 0
    · rw [if_pos h]
      simp [shellCmd, adbCmd]
    · rw [if_neg h]
      simp only [List.mem_cons]
      rintro (hc | hc)
      · simp [shellCmd, adbCmd] at hc
      · exact ih hc

theorem pull_apk_no_uninstall (o : Oracle) (pkg root : String) :
    BEv.bridge (shellCmd ["pm", "uninstall", "-k", pkg]) ∉ (pull_apk o pkg root).1 := by
  unfold pull_apk
  dsimp only
  by_cases h0 : (o (shellCmd ["pm", "path", pkg])).returncode ≠ 0
  · rw [if_pos h0]
    simp [shellCmd, adbCmd]
  · rw [if_neg h0]
    have hloop := pullLoop_no_uninstall o (pyJoin root pkg) pkg
      (pySplit (pyStrip (o (shellCmd ["pm", "path", pkg])).stdout) (Char.ofNat 10))
    rcases hp : pullLoop o (pyJoin root pkg)
        (pySplit (pyStrip (o (shellCmd ["pm", "path", pkg])).stdout) (Char.ofNat 10)) with ⟨t, res⟩
    rw [hp] at hloop
    cases res
    · dsimp only
      simp only [List.mem_cons]
      rintro (hc | hc)
      · simp [shellCmd, adbCmd] at hc
      · exact hloop hc
    · dsimp only
      split_ifs <;>
      · intro hmem
        rcases List.mem_cons.mp hmem with hc | hmem2
        · simp [shellCmd, adbCmd] at hc
        · rcases List.mem_append.mp hmem2 with hc | hc
          · exact hloop hc
          · have hc2 := List.mem_singleton.mp hc
            simp [shellCmd, adbCmd] at hc2

/-- C5: in every execution of `uninstall`, the destructive
`pm uninstall -k` command is issued only after `pull_apk` has completed
successfully (the uninstall trace is the full backup trace followed by the
uninstall command), and when the backup fails the uninstall command never
appears in the trace. -/
theorem uninstall_only_after_backup (o : Oracle) (fs : String → List String)
    (package_name root : String) :
    ((∃ t e, pull_apk o package_name root = (t, Except.error e)) →
      BEv.bridge (shellCmd ["pm", "uninstall", "-k", package_name]) ∉
        (uninstall o fs package_name root).1) ∧
    (∀ t dirPath, pull_apk o package_name root = (t, Except.ok dirPath) → dirPath ≠ "" →
      ∃ rest res, uninstall o fs package_name root =
        (t ++ BEv.bridge (shellCmd ["pm", "uninstall", "-k", package_name]) :: rest, res)) := by
  constructor
  · rintro ⟨t, e, hp⟩
    have hnot := pull_apk_no_uninstall o package_name root
    rw [hp] at hnot
    unfold uninstall
    rw [hp]
    simpa using hnot
  · intro t dirPath hp hd
    unfold uninstall
    rw [hp]
    dsimp only
    rw [if_neg hd]
    by_cases hr : (o (shellCmd ["pm", "uninstall", "-k", package_name])).returncode ≠ 0
    · rw [if_pos hr]
      rcases hres : restore o dirPath root (fs dirPath) with ⟨t2, res⟩
      cases res
      · exact ⟨t2, _, rfl⟩
      · exact ⟨t2, _, rfl⟩
    · rw [if_neg hr]
      exact ⟨[], _, rfl⟩

/-- Witness for C5: with `pm path` failing, the backup fails and the
uninstall command is never issued. -/
theorem uninstall_only_after_backup_witness :
    BEv.bridge (shellCmd ["pm", "uninstall", "-k", "p"]) ∉
      (uninstall
        (fun c => if c = shellCmd ["pm", "path", "p"] then ⟨1, "", "err"⟩ else ⟨0, "", ""⟩)
        (fun _ => []) "p" "r").1 :=
  (uninstall_only_after_backup
      (fun c => if c = shellCmd ["pm", "path", "p"] then ⟨1, "", "err"⟩ else ⟨0, "", ""⟩)
      (fun _ => []) "p" "r").1
    ⟨[BEv.bridge (shellCmd ["pm", "path", "p"])], "err", by rfl⟩

/-- C7 counterexample: when `pm uninstall -k` reports status 1, `uninstall`
runs `restore` over the just-taken backup (the obb-less multi-file
reinstall event appears in the trace) and returns the completed process as
a normal value rather than an error — the caller's truthiness check on a
CompletedProcess always passes, so the operation is not reported failed,
the backup is not discarded, and a restore is attempted. -/
theorem uninstall_failure_triggers_restore :
    (uninstall uninstallFailOracle twoApkListing "p" "r").2 = Except.ok ⟨1, "", "Failure"⟩ ∧
    BEv.multiReinstall ["install-multiple", "-rtd", "x.apk", "y.apk"] ∈
      (uninstall uninstallFailOracle twoApkListing "p" "r").1 := by
  constructor
  · rfl
  · decide

/-- C7 amended: when the uninstall-keep-data command reports nonzero,
`uninstall` does not discard the backup or report failure; it immediately
attempts a `restore` of the backup and then returns the failing completed
process as its ordinary value (truthy to its caller). -/
theorem uninstall_failure_restores_and_returns (o : Oracle) (fs : String → List String)
    (package_name root : String) (t : List BEv) (dirPath : String)
    (hp : pull_apk o package_name root = (t, Except.ok dirPath))
    (hd : dirPath ≠ "")
    (hr : (o (shellCmd ["pm", "uninstall", "-k", package_name])).returncode ≠ 0) :
    uninstall o fs package_name root =
      (t ++ BEv.bridge (shellCmd ["pm", "uninstall", "-k", package_name]) ::
        (restore o dirPath root (fs dirPath)).1,
       match (restore o dirPath root (fs dirPath)).2 with
       | Except.ok _ => Except.ok (o (shellCmd ["pm", "uninstall", "-k", package_name]))
       | Except.error e => Except.error e) := by
  unfold uninstall
  rw [hp]
  dsimp only
  rw [if_neg hd, if_pos hr]
  rcases hres : restore o dirPath root (fs dirPath) with ⟨t2, res⟩
  cases res <;> simp [hres]

/-- Witness for C7 amended at the uninstall-failure fixture. -/
theorem uninstall_failure_restores_and_returns_witness :
    uninstall uninstallFailOracle twoApkListing "p" "r" =
      ([BEv.bridge (shellCmd ["pm", "path", "p"]),
        BEv.bridge (adbCmd ["pull", "/a.apk", "r/p"]),
        BEv.bridge (adbCmd ["pull", "/storage/emulated/0/Android/obb/p", "r/p"])] ++
        BEv.bridge (shellCmd ["pm", "uninstall", "-k", "p"]) ::
          (restore uninstallFailOracle "r/p" "r" (twoApkListing "r/p")).1,
       match (restore uninstallFailOracle "r/p" "r" (twoApkListing "r/p")).2 with
       | Except.ok _ => Except.ok (uninstallFailOracle (shellCmd ["pm", "uninstall", "-k", "p"]))
       | Except.error e => Except.error e) :=
  uninstall_failure_restores_and_returns uninstallFailOracle twoApkListing "p" "r"
    [BEv.bridge (shellCmd ["pm", "path", "p"]),
     BEv.bridge (adbCmd ["pull", "/a.apk", "r/p"]),
     BEv.bridge (adbCmd ["pull", "/storage/emulated/0/Android/obb/p", "r/p"])] "r/p"
    (by rfl) (by decide) (by decide)

/-! ## C2 and C3: split selection -/

theorem abi_ne_special : ∀ u ∈ _abi, u ≠ "abi" ∧ u ≠ "language" ∧ u ≠ "drawable" := by decide

theorem splitGet1_config_abi : ∀ u ∈ _abi, splitGet1 ("config." ++ u) = u := by decide

theorem languageIds_not_abi_dpi :
    ∀ x ∈ languageIds, abiIds.contains x = false ∧ pyEndsWith x "dpi" = false := by decide

theorem contains_iff (l : List String) (x : String) : l.contains x = true ↔ x ∈ l := by
  simp [List.contains, List.elem_iff]

theorem string_append_left_cancel {p u t : String} (h : p ++ u = p ++ t) : u = t := by
  have h2 : p.data ++ u.data = p.data ++ t.data := congrArg String.data h
  have h3 := List.append_cancel_left h2
  cases u
  cases t
  exact congrArg String.mk h3

theorem xapkStep_dget_key (device : Device) (st : Dict × List PyVal) (i : SplitApk)
    (t : String) (ht : t ∈ _abi) (hloc : device.locale ∉ _abi)
    (hdpi : pyEndsWith i.id "dpi" = true → splitGet1 i.id ∉ _abi) :
    dget (xapkStep device st i).1 t =
      if i.id = "config." ++ t then some (PyVal.str i.file) else dget st.1 t := by
  have htspec := abi_ne_special t ht
  unfold xapkStep
  dsimp only
  have hend : dget (if i.id = "config." ++ pyReplaceDash device.abi
      then dset st.1 "abi" (PyVal.str i.file) else st.1) t = dget st.1 t := by
    by_cases habi : i.id = "config." ++ pyReplaceDash device.abi
    · rw [if_pos habi, dget_dset, if_neg (fun h => htspec.1 h.symm)]
    · rw [if_neg habi]
  by_cases hloc2 : i.id = "config." ++ device.locale
  · rw [if_pos hloc2]
    have hne : ¬(i.id = "config." ++ t) := by
      intro hEq
      have hlt : device.locale = t := string_append_left_cancel (hloc2.symm.trans hEq)
      rw [← hlt] at ht
      exact hloc ht
    rw [if_neg hne]
    dsimp only
    rw [dget_dset, if_neg (fun h => htspec.2.1 h.symm), hend]
  · rw [if_neg hloc2]
    by_cases hb : (abiIds.contains i.id || pyEndsWith i.id "dpi") = true
    · rw [if_pos hb]
      dsimp only
      rw [dget_dset]
      by_cases hEq : i.id = "config." ++ t
      · have hkey : splitGet1 i.id = t := by rw [hEq]; exact splitGet1_config_abi t ht
        rw [if_pos hkey, if_pos hEq]
      · have hkey : ¬(splitGet1 i.id = t) := by
          intro hk
          rcases Bool.or_eq_true_iff.mp hb with hcon | hdp
          · have hmem := (contains_iff abiIds i.id).mp hcon
            unfold abiIds at hmem
            rcases List.mem_map.mp hmem with ⟨u, hu, hcfg⟩
            have hsu : splitGet1 i.id = u := by
              rw [← hcfg]; exact splitGet1_config_abi u hu
            apply hEq
            rw [← hcfg, hsu.symm.trans hk]
          · apply hdpi hdp
            rw [hk]; exact ht
        rw [if_neg hkey, if_neg hEq, hend]
    · rw [if_neg hb]
      have hEq : ¬(i.id = "config." ++ t) := by
        intro hk
        apply hb
        apply Bool.or_eq_true_iff.mpr
        left
        apply (contains_iff abiIds i.id).mpr
        rw [hk]
        unfold abiIds
        exact List.mem_map_of_mem _ ht
      rw [if_neg hEq]
      by_cases hl : languageIds.contains i.id = true
      · rw [if_pos hl]
        dsimp only
        rw [dget_dset, if_neg (fun h => htspec.2.1 h.symm), hend]
      · rw [if_neg hl]
        dsimp only
        rw [hend]

theorem xapkStep_dget_abi (device : Device) (st : Dict × List PyVal) (i : SplitApk)
    (hdpi : pyEndsWith i.id "dpi" = true → splitGet1 i.id ∉ reservedKeys) :
    dget (xapkStep device st i).1 "abi" =
      if i.id = "config." ++ pyReplaceDash device.abi then some (PyVal.str i.file)
      else dget st.1 "abi" := by
  unfold xapkStep
  dsimp only
  have hend : dget (if i.id = "config." ++ pyReplaceDash device.abi
      then dset st.1 "abi" (PyVal.str i.file) else st.1) "abi" =
      if i.id = "config." ++ pyReplaceDash device.abi then some (PyVal.str i.file)
      else dget st.1 "abi" := by
    by_cases habi : i.id = "config." ++ pyReplaceDash device.abi
    · rw [if_pos habi, if_pos habi, dget_dset, if_pos rfl]
    · rw [if_neg habi, if_neg habi]
  have hkeyne : (abiIds.contains i.id || pyEndsWith i.id "dpi") = true →
      ¬(splitGet1 i.id = "abi") := by
    intro hb hk
    rcases Bool.or_eq_true_iff.mp hb with hcon | hdp
    · have hmem := (contains_iff abiIds i.id).mp hcon
      unfold abiIds at hmem
      rcases List.mem_map.mp hmem with ⟨u, hu, hcfg⟩
      have hsu : splitGet1 i.id = u := by
        rw [← hcfg]; exact splitGet1_config_abi u hu
      exact (abi_ne_special u hu).1 (hsu.symm.trans hk)
    · have := hdpi hdp
      rw [hk] at this
      exact this (by decide)
  by_cases hloc2 : i.id = "config." ++ device.locale
  · rw [if_pos hloc2]
    dsimp only
    rw [dget_dset, if_neg (by decide : ¬(("language" : String) = "abi")), hend]
  · rw [if_neg hloc2]
    by_cases hb : (abiIds.contains i.id || pyEndsWith i.id "dpi") = true
    · rw [if_pos hb]
      dsimp only
      rw [dget_dset, if_neg (hkeyne hb), hend]
    · rw [if_neg hb]
      by_cases hl : languageIds.contains i.id = true
      · rw [if_pos hl]
        dsimp only
        rw [dget_dset, if_neg (by decide : ¬(("language" : String) = "abi")), hend]
      · rw [if_neg hl]
        dsimp only
        rw [hend]

theorem xapkStep_dget_language (device : Device) (st : Dict × List PyVal) (i : SplitApk)
    (g : List String) (hg : dget st.1 "language" = some (PyVal.list g))
    (hdpi : pyEndsWith i.id "dpi" = true → splitGet1 i.id ∉ reservedKeys) :
    dget (xapkStep device st i).1 "language" =
      some (PyVal.list (langUpdStep device i g)) := by
  unfold xapkStep langUpdStep
  dsimp only
  have hend : dget (if i.id = "config." ++ pyReplaceDash device.abi
      then dset st.1 "abi" (PyVal.str i.file) else st.1) "language" =
      some (PyVal.list g) := by
    by_cases habi : i.id = "config." ++ pyReplaceDash device.abi
    · rw [if_pos habi, dget_dset, if_neg (by decide : ¬(("abi" : String) = "language"))]
      exact hg
    · rw [if_neg habi]
      exact hg
  have hlangOf : langOf (if i.id = "config." ++ pyReplaceDash device.abi
      then dset st.1 "abi" (PyVal.str i.file) else st.1) = g := by
    unfold langOf
    rw [hend]
  have hkeyne : (abiIds.contains i.id || pyEndsWith i.id "dpi") = true →
      ¬(splitGet1 i.id = "language") := by
    intro hb hk
    rcases Bool.or_eq_true_iff.mp hb with hcon | hdp
    · have hmem := (contains_iff abiIds i.id).mp hcon
      unfold abiIds at hmem
      rcases List.mem_map.mp hmem with ⟨u, hu, hcfg⟩
      have hsu : splitGet1 i.id = u := by
        rw [← hcfg]; exact splitGet1_config_abi u hu
      exact (abi_ne_special u hu).2.1 (hsu.symm.trans hk)
    · have := hdpi hdp
      rw [hk] at this
      exact this (by decide)
  by_cases hloc2 : i.id = "config." ++ device.locale
  · rw [if_pos hloc2, if_pos hloc2]
    dsimp only
    rw [dget_dset, if_pos rfl, hlangOf]
  · rw [if_neg hloc2, if_neg hloc2]
    by_cases hb : (abiIds.contains i.id || pyEndsWith i.id "dpi") = true
    · rw [if_pos hb, if_pos hb]
      dsimp only
      rw [dget_dset, if_neg (hkeyne hb), hend]
    · rw [if_neg hb, if_neg hb]
      by_cases hl : languageIds.contains i.id = true
      · rw [if_pos hl, if_pos hl]
        dsimp only
        rw [dget_dset, if_pos rfl, hlangOf]
      · rw [if_neg hl, if_neg hl]
        dsimp only
        rw [hend]

theorem build_dget_abi (device : Device) (splits : List SplitApk) (install : List PyVal)
    (hdpi : ∀ a ∈ splits, pyEndsWith a.id "dpi" = true → splitGet1 a.id ∉ reservedKeys) :
    dget (build_xapk_config device splits install).1 "abi" =
      match splits.reverse.find? (fun a => a.id == "config." ++ pyReplaceDash device.abi) with
      | some a => some (PyVal.str a.file)
      | none => none := by
  have h := foldl_last_write (xapkStep device) (fun st : Dict × List PyVal => dget st.1 "abi")
    (fun a => a.id == "config." ++ pyReplaceDash device.abi) (fun a => PyVal.str a.file) splits
    (fun st a ha => by
      dsimp only
      rw [xapkStep_dget_abi device st a (hdpi a ha)]
      by_cases hc : a.id = "config." ++ pyReplaceDash device.abi
      · rw [if_pos hc, if_pos (beq_iff_eq.mpr hc)]
      · rw [if_neg hc, if_neg (fun hb => hc (beq_iff_eq.mp hb))])
    ([("language", PyVal.list [])], install)
  dsimp only at h
  unfold build_xapk_config
  rw [h]
  cases splits.reverse.find? (fun a => a.id == "config." ++ pyReplaceDash device.abi) <;> rfl

theorem build_dget_key (device : Device) (splits : List SplitApk) (install : List PyVal)
    (t : String) (ht : t ∈ _abi) (hloc : device.locale ∉ _abi)
    (hdpi : ∀ a ∈ splits, pyEndsWith a.id "dpi" = true → splitGet1 a.id ∉ _abi) :
    dget (build_xapk_config device splits install).1 t =
      match splits.reverse.find? (fun a => a.id == "config." ++ t) with
      | some a => some (PyVal.str a.file)
      | none => none := by
  have h := foldl_last_write (xapkStep device) (fun st : Dict × List PyVal => dget st.1 t)
    (fun a => a.id == "config." ++ t) (fun a => PyVal.str a.file) splits
    (fun st a ha => by
      dsimp only
      rw [xapkStep_dget_key device st a t ht hloc (hdpi a ha)]
      by_cases hc : a.id = "config." ++ t
      · rw [if_pos hc, if_pos (beq_iff_eq.mpr hc)]
      · rw [if_neg hc, if_neg (fun hb => hc (beq_iff_eq.mp hb))])
    ([("language", PyVal.list [])], install)
  dsimp only at h
  unfold build_xapk_config
  rw [h]
  cases splits.reverse.find? (fun a => a.id == "config." ++ t)
  · show dget [("language", PyVal.list [])] t = none
    unfold dget
    rw [if_neg ((abi_ne_special t ht).2.1).symm]
    rfl
  · rfl

theorem build_dget_language_aux (device : Device) (splits : List SplitApk)
    (hdpi : ∀ a ∈ splits, pyEndsWith a.id "dpi" = true → splitGet1 a.id ∉ reservedKeys) :
    ∀ (st : Dict × List PyVal) (g : List String),
      dget st.1 "language" = some (PyVal.list g) →
      dget (splits.foldl (xapkStep device) st).1 "language" =
        some (PyVal.list (splits.foldl (fun g2 i => langUpdStep device i g2) g)) := by
  induction splits with
  | nil => intro st g hg; simpa using hg
  | cons a rest ih =>
    intro st g hg
    rw [List.foldl_cons, List.foldl_cons]
    exact ih (fun x hx h => hdpi x (List.mem_cons_of_mem a hx) h) (xapkStep device st a)
      (langUpdStep device a g)
      (xapkStep_dget_language device st a g hg (hdpi a (List.mem_cons_self a rest)))

theorem build_dget_language (device : Device) (splits : List SplitApk) (install : List PyVal)
    (hdpi : ∀ a ∈ splits, pyEndsWith a.id "dpi" = true → splitGet1 a.id ∉ reservedKeys) :
    dget (build_xapk_config device splits install).1 "language" =
      some (PyVal.list (splits.foldl (fun g2 i => langUpdStep device i g2) [])) := by
  unfold build_xapk_config
  exact build_dget_language_aux device splits hdpi ([("language", PyVal.list [])], install) [] rfl

theorem langUpd_fold_no_locale (device : Device) (splits : List SplitApk)
    (hloc : ∀ a ∈ splits, a.id ≠ "config." ++ device.locale) :
    ∀ g, splits.foldl (fun g2 i => langUpdStep device i g2) g = g ++ langFiles splits := by
  induction splits with
  | nil => intro g; simp [langFiles]
  | cons a rest ih =>
    intro g
    rw [List.foldl_cons]
    have ha := hloc a (List.mem_cons_self a rest)
    have ih2 := ih (fun x hx => hloc x (List.mem_cons_of_mem a hx))
    have hstep_eq : langUpdStep device a g =
        (if (abiIds.contains a.id || pyEndsWith a.id "dpi") = true then g
         else if languageIds.contains a.id = true then g ++ [a.file] else g) := by
      unfold langUpdStep
      rw [if_neg ha]
    rw [hstep_eq]
    by_cases hb : (abiIds.contains a.id || pyEndsWith a.id "dpi") = true
    · rw [if_pos hb, ih2 g]
      have hnl : languageIds.contains a.id = false := by
        cases hcl : languageIds.contains a.id
        · rfl
        · exfalso
          have hmem := (contains_iff languageIds a.id).mp hcl
          have hprops := languageIds_not_abi_dpi a.id hmem
          rcases Bool.or_eq_true_iff.mp hb with h1 | h1
          · rw [hprops.1] at h1; exact Bool.false_ne_true h1
          · rw [hprops.2] at h1; exact Bool.false_ne_true h1
      have hnotmem : a.id ∉ languageIds := by
        intro hm
        have hc := (contains_iff languageIds a.id).mpr hm
        rw [hnl] at hc
        exact Bool.false_ne_true hc
      simp [langFiles, List.filter_cons, hnotmem]
    · rw [if_neg hb]
      by_cases hl : languageIds.contains a.id = true
      · rw [if_pos hl, ih2 (g ++ [a.file])]
        have hmem : a.id ∈ languageIds := (contains_iff languageIds a.id).mp hl
        simp [langFiles, List.filter_cons, hmem]
      · rw [if_neg hl, ih2 g]
        have hnotmem : a.id ∉ languageIds := fun hm => hl ((contains_iff languageIds a.id).mpr hm)
        simp [langFiles, List.filter_cons, hnotmem]

/-- C2 counterexample: a device with locale `pt` and a candidate set whose
only language split is `config.en` — no artifact matches the device
locale, yet the full selection pipeline appends the `en` language split to
the install plan (src lines 221-222 collect every recognised language
split and src line 347 installs the first of them), so the selector does
substitute a language split for a different language than the device's
locale. -/
theorem xapk_language_other_locale_selected :
    (let b := build_xapk_config devPt [⟨"config.en", "config.en.apk"⟩]
      [PyVal.str "install-multiple", PyVal.str "-rtd"]
     let a := config_abi b.1 b.2 devPt.abilist
     let d := config_drawable a.1 a.2
     (config_language d.1 d.2).2) =
      [PyVal.str "install-multiple", PyVal.str "-rtd", PyVal.str "config.en.apk"] ∧
    devPt.locale = "pt" := by
  constructor
  · decide
  · rfl

/-- C2 amended: when no artifact matches the device's locale, the language
step adds the first recognised-language split when any exists (regardless
of its language), and adds nothing (degraded, non-fatal) only when the
candidate set contains no recognised language split at all. -/
theorem xapk_language_selection_characterization (device : Device) (splits : List SplitApk)
    (install : List PyVal)
    (hloc : ∀ a ∈ splits, a.id ≠ "config." ++ device.locale)
    (hdpi : ∀ a ∈ splits, pyEndsWith a.id "dpi" = true → splitGet1 a.id ∉ reservedKeys) :
    config_language (build_xapk_config device splits install).1
        (build_xapk_config device splits install).2 =
      ((build_xapk_config device splits install).1,
       (build_xapk_config device splits install).2 ++
         if langFiles splits = [] then []
         else [PyVal.str ((langFiles splits).headD "")]) := by
  have hlang : dget (build_xapk_config device splits install).1 "language" =
      some (PyVal.list (langFiles splits)) := by
    rw [build_dget_language device splits install hdpi,
      langUpd_fold_no_locale device splits hloc []]
    rw [List.nil_append]
  unfold config_language langOf
  rw [hlang]
  cases hlf : langFiles splits with
  | nil => simp [pyTruthy]
  | cons x xs => simp [pyTruthy]

/-- Witness for C2 amended: the `pt` device with a single `en` split takes
the nonempty branch and installs the `en` split. -/
theorem xapk_language_selection_characterization_witness :
    config_language (build_xapk_config devPt [⟨"config.en", "x.apk"⟩] []).1
        (build_xapk_config devPt [⟨"config.en", "x.apk"⟩] []).2 =
      ((build_xapk_config devPt [⟨"config.en", "x.apk"⟩] []).1,
       (build_xapk_config devPt [⟨"config.en", "x.apk"⟩] []).2 ++
         if langFiles [⟨"config.en", "x.apk"⟩] = [] then []
         else [PyVal.str ((langFiles [⟨"config.en", "x.apk"⟩]).headD "")]) :=
  xapk_language_selection_characterization devPt [⟨"config.en", "x.apk"⟩] []
    (by decide) (by decide)

theorem abiWalk_spec (device : Device) (splits : List SplitApk) (install : List PyVal)
    (h1 : ∀ a ∈ splits, a.file ≠ "")
    (h2 : (splits.map (fun a => a.id)).Nodup)
    (hloc : device.locale ∉ _abi)
    (hdpi : ∀ a ∈ splits, pyEndsWith a.id "dpi" = true → splitGet1 a.id ∉ _abi) :
    ∀ ablist : List String, (∀ n ∈ ablist, pyReplaceDash n ∈ _abi) →
      abiWalk (build_xapk_config device splits install).1 ablist =
        match ablist.find?
            (fun n => splits.any (fun a => a.id == "config." ++ pyReplaceDash n)) with
        | some n =>
          match splits.find? (fun a => a.id == "config." ++ pyReplaceDash n) with
          | some a => [PyVal.str a.file]
          | none => []
        | none => [] := by
  intro ablist
  induction ablist with
  | nil => intro _; rfl
  | cons n rest ih =>
    intro hab
    have hn := hab n (List.mem_cons_self n rest)
    have hkey := build_dget_key device splits install (pyReplaceDash n) hn hloc hdpi
    have huniq : ∀ x ∈ splits, ∀ y ∈ splits,
        (x.id == "config." ++ pyReplaceDash n) = true →
        (y.id == "config." ++ pyReplaceDash n) = true → x = y :=
      fun x hx y hy hxq hyq =>
        nodup_map_inj h2 x hx y hy ((beq_iff_eq.mp hxq).trans (beq_iff_eq.mp hyq).symm)
    rw [findq_reverse_of_unique splits _ huniq] at hkey
    unfold abiWalk
    dsimp only
    cases hfind : splits.find? (fun a => a.id == "config." ++ pyReplaceDash n) with
    | some a =>
      rw [hfind] at hkey
      have hfile : a.file ≠ "" := h1 a (List.mem_of_find?_eq_some hfind)
      rw [hkey, if_pos (by simp [pyTruthy, hfile])]
      have hpa := @List.find?_some SplitApk
        (fun x => x.id == "config." ++ pyReplaceDash n) a splits hfind
      have hany : (splits.any (fun a => a.id == "config." ++ pyReplaceDash n)) = true :=
        List.any_eq_true.mpr ⟨a, List.mem_of_find?_eq_some hfind, hpa⟩
      simp [List.find?, hany, hfind]
    | none =>
      rw [hfind] at hkey
      rw [hkey, if_neg (by simp [pyTruthy])]
      have hnoany : (splits.any (fun a => a.id == "config." ++ pyReplaceDash n)) = false := by
        cases hq : splits.any (fun a => a.id == "config." ++ pyReplaceDash n)
        · rfl
        · exfalso
          rcases List.any_eq_true.mp hq with ⟨x, hx, hpx⟩
          exact List.find?_eq_none.mp hfind x hx hpx
      rw [ih (fun m hm => hab m (List.mem_cons_of_mem n hm))]
      simp [List.find?, hnoany]

/-- C3: after `build_xapk_config`, `config_abi` extends the install list by
exactly the ABI split the spec's rule describes: an artifact whose tag
equals the normalised primary ABI wins outright over the fallback walk;
otherwise the first `abiList` entry (in reported order) with a matching
artifact provides the split; otherwise nothing is added.  Hypotheses:
artifact files are non-empty (Python truthiness), artifact ids are
distinct, density-suffixed ids do not collide with ABI or reserved keys,
the device locale is not an ABI name, and the reported `abiList` entries
normalise into the recognised ABI vocabulary. -/
theorem abi_selection_matches_spec (device : Device) (splits : List SplitApk)
    (install : List PyVal)
    (h1 : ∀ a ∈ splits, a.file ≠ "")
    (h2 : (splits.map (fun a => a.id)).Nodup)
    (h3 : ∀ a ∈ splits, pyEndsWith a.id "dpi" = true →
      splitGet1 a.id ∉ _abi ∧ splitGet1 a.id ∉ reservedKeys)
    (h4 : device.locale ∉ _abi)
    (h5 : ∀ n ∈ device.abilist, pyReplaceDash n ∈ _abi) :
    config_abi (build_xapk_config device splits install).1
        (build_xapk_config device splits install).2 device.abilist =
      ((build_xapk_config device splits install).1,
       (build_xapk_config device splits install).2 ++
         (abiSpecSelect device splits).elim [] (fun f => [PyVal.str f])) := by
  have hdpi1 : ∀ a ∈ splits, pyEndsWith a.id "dpi" = true → splitGet1 a.id ∉ _abi :=
    fun a ha h => (h3 a ha h).1
  have hdpi2 : ∀ a ∈ splits, pyEndsWith a.id "dpi" = true → splitGet1 a.id ∉ reservedKeys :=
    fun a ha h => (h3 a ha h).2
  have habi := build_dget_abi device splits install hdpi2
  have huniq : ∀ x ∈ splits, ∀ y ∈ splits,
      (x.id == "config." ++ pyReplaceDash device.abi) = true →
      (y.id == "config." ++ pyReplaceDash device.abi) = true → x = y :=
    fun x hx y hy hxq hyq =>
      nodup_map_inj h2 x hx y hy ((beq_iff_eq.mp hxq).trans (beq_iff_eq.mp hyq).symm)
  rw [findq_reverse_of_unique splits _ huniq] at habi
  unfold config_abi abiSpecSelect
  cases hfp : splits.find? (fun a => a.id == "config." ++ pyReplaceDash device.abi) with
  | some a =>
    rw [hfp] at habi
    have hfile : a.file ≠ "" := h1 a (List.mem_of_find?_eq_some hfp)
    rw [habi, if_pos (by simp [pyTruthy, hfile])]
    simp
  | none =>
    rw [hfp] at habi
    rw [habi, if_neg (by simp [pyTruthy])]
    rw [abiWalk_spec device splits install h1 h2 h4 hdpi1 device.abilist h5]
    cases hfo : device.abilist.find?
        (fun n => splits.any (fun a => a.id == "config." ++ pyReplaceDash n)) with
    | some n =>
      cases hfi : splits.find? (fun a => a.id == "config." ++ pyReplaceDash n) <;>
        simp [hfo, hfi]
    | none => simp [hfo]

/-- Witness for C3 at the scenario-A device and split set: the primary-ABI
split wins over the 32-bit fallback. -/
theorem abi_selection_matches_spec_witness :
    config_abi (build_xapk_config devA splitsA []).1 (build_xapk_config devA splitsA []).2
        devA.abilist =
      ((build_xapk_config devA splitsA []).1,
       (build_xapk_config devA splitsA []).2 ++
         (abiSpecSelect devA splitsA).elim [] (fun f => [PyVal.str f])) :=
  abi_selection_matches_spec devA splitsA []
    (by decide) (by decide) (by decide) (by decide) (by decide)
